import Mathlib

/-
Verification development for the biokleen.com PDF acquisition and
validation pipeline (src/main.py).

The embedding is shallow: each Python function of the source is
translated into an executable Lean definition.  External collaborators
(Selenium drivers, the fitz PDF parser, the validators library, the
filesystem) are modelled by explicit oracles or state records; the
Python standard-library functions the source calls (urllib.parse,
str.lower, os.path.join, ...) are modelled by definitions that follow
the CPython implementations on the ASCII inputs the program handles.
-/

namespace BiokleenPdf

/- ### Character and string helpers (models of Python str operations) -/

/-- Model of Python str.lower for one character: ASCII case folding.
Non-ASCII case mappings are not modelled; every string the program
manipulates (hrefs, filenames, ".pdf" suffixes) is ASCII. -/
def pyLowerChar (c : Char) : Char :=
  if 65 ≤ c.toNat && c.toNat ≤ 90 then Char.ofNat (c.toNat + 32) else c

/-- Model of Python str.lower on a whole string. -/
def pyLower (s : String) : String :=
  ⟨s.data.map pyLowerChar⟩

/-- Suffix test on character lists (model of Python str.endswith). -/
def listEndsWith (s t : List Char) : Bool :=
  decide (t.length ≤ s.length) && (s.drop (s.length - t.length) == t)

/-- Model of Python str.endswith. -/
def strEndsWith (s t : String) : Bool :=
  listEndsWith s.data t.data

/-- Model of Python str.startswith. -/
def strStartsWith (s t : String) : Bool :=
  s.data.take t.data.length == t.data

/-- Model of Python str.split(sep) for a one-character separator:
always returns at least one (possibly empty) segment. -/
def splitOnChar (sep : Char) : List Char → List (List Char)
  | [] => [[]]
  | c :: rest =>
    let r := splitOnChar sep rest
    if c = sep then [] :: r
    else
      match r with
      | [] => [[c]]
      | seg :: segs => (c :: seg) :: segs

/-- Model of os.path.join for two components (POSIX rules: an absolute
second component replaces the first, otherwise a "/" separator is
inserted unless one is already present). -/
def pathJoin (a b : String) : String :=
  if strStartsWith b "/" then b
  else if a = "" || strEndsWith a "/" then a ++ b
  else a ++ "/" ++ b

/- ### Model of urllib.parse.urlparse (path component) -/

/-- ASCII letter test (model of str.isascii() and str.isalpha()). -/
def isAsciiLetter (c : Char) : Bool :=
  (97 ≤ c.toNat && c.toNat ≤ 122) || (65 ≤ c.toNat && c.toNat ≤ 90)

/-- Characters CPython allows in a URL scheme after the first letter. -/
def isSchemeChar (c : Char) : Bool :=
  isAsciiLetter c || c.isDigit || c = '+' || c = '-' || c = '.'

/-- Strip a leading "scheme:" the way CPython urlsplit does: only when
the first colon is preceded by an ASCII letter followed by scheme
characters. -/
def splitScheme (cs : List Char) : List Char :=
  match cs.findIdx? (fun c => c = ':') with
  | none => cs
  | some i =>
    if 0 < i then
      match cs with
      | [] => cs
      | c0 :: _ =>
        if isAsciiLetter c0 && ((cs.take i).drop 1).all isSchemeChar then
          cs.drop (i + 1)
        else cs
    else cs

/-- Split the network location (everything up to the first of "/", "?"
or "#") from what follows it; the input no longer holds the leading
"//".  Model of CPython _splitnetloc. -/
def splitNetloc (cs : List Char) : List Char × List Char :=
  match cs.findIdx? (fun c => c = '/' || c = '?' || c = '#') with
  | none => (cs, [])
  | some i => (cs.take i, cs.drop i)

/-- Index of the last "/" in the list, if any (model of str.rfind). -/
def lastSlashIdx (cs : List Char) : Option Nat :=
  match cs.reverse.findIdx? (fun c => c = '/') with
  | none => none
  | some j => some (cs.length - 1 - j)

/-- First ";" at or after the given index (model of str.find(";", start)). -/
def findSemiFrom (cs : List Char) (start : Nat) : Option Nat :=
  match (cs.drop start).findIdx? (fun c => c = ';') with
  | none => none
  | some j => some (start + j)

/-- Model of CPython urllib.parse._splitparams restricted to the path
result: drop a ";params" suffix of the last path segment. -/
def splitParamsPath (cs : List Char) : List Char :=
  if cs.contains ';' then
    match lastSlashIdx cs with
    | some r =>
      match findSemiFrom cs r with
      | none => cs
      | some i => cs.take i
    | none =>
      match cs.findIdx? (fun c => c = ';') with
      | none => cs
      | some i => cs.take i
  else cs

/-- Model of urllib.parse.urlparse(url).path (CPython 3.11): strip
leading C0-control/space characters, remove tab/CR/LF, strip a valid
scheme, split off the network location (raising ValueError "Invalid
IPv6 URL" on an unmatched bracket in it, the error path the program
can hit), drop fragment and query, and split trailing parameters.
The additional CPython checks that reject non-ASCII network locations
or bracketed hosts that are not valid IPv6/IPvFuture addresses are not
modelled; they cannot fire on ASCII bracket-free network locations. -/
def urlparsePath (url : String) : Except String String :=
  let u0 := url.data.dropWhile (fun c => c.toNat ≤ 32)
  let u1 := u0.filter (fun c => !(c = '\t' || c = '\r' || c = '\n'))
  let u2 := splitScheme u1
  let netlocAndRest :=
    match u2 with
    | '/' :: '/' :: rest => splitNetloc rest
    | _ => ([], u2)
  let netloc := netlocAndRest.1
  let u3 := netlocAndRest.2
  if (netloc.contains '[' && !netloc.contains ']') ||
     (netloc.contains ']' && !netloc.contains '[') then
    .error "Invalid IPv6 URL"
  else
    let u4 := u3.takeWhile (fun c => c ≠ '#')
    let u5 := u4.takeWhile (fun c => c ≠ '?')
    .ok ⟨splitParamsPath u5⟩

/- ### src/main.py: url_to_filename (lines 55-65) -/

/-- The character class kept by url_to_filename's re.sub, [a-z0-9._-]:
codes 97-122 are a-z, 48-57 are 0-9, 46 is ".", 95 is "_", 45 is "-". -/
def allowedFilenameChar (c : Char) : Bool :=
  (97 ≤ c.toNat && c.toNat ≤ 122) || (48 ≤ c.toNat && c.toNat ≤ 57) ||
    c.toNat = 46 || c.toNat = 95 || c.toNat = 45

/-- The pure core of url_to_filename applied to the parsed path: last
"/"-delimited segment, lower-cased, characters outside [a-z0-9._-]
stripped, lower-cased again. -/
def cleanFilename (path : String) : String :=
  let filename := pyLower ⟨(splitOnChar '/' path.data).getLastD []⟩
  pyLower ⟨filename.data.filter allowedFilenameChar⟩

/-- Model of url_to_filename (src/main.py lines 55-65).  The Except
carries the ValueError that urllib.parse.urlparse can raise. -/
def url_to_filename (url : String) : Except String String :=
  match urlparsePath url with
  | .error e => .error e
  | .ok path => .ok (cleanFilename path)

/- ### src/main.py: parse_html (lines 33-45) -/

/-- One anchor element as reported by the markup-parsing collaborator
(BeautifulSoup): its href attribute value, when it has one. -/
structure Anchor where
  href : Option String
deriving DecidableEq

/-- Hexadecimal digit value, if any (model of the digit table used by
urllib.parse.unquote). -/
def hexDigitVal (c : Char) : Option Nat :=
  if 48 ≤ c.toNat && c.toNat ≤ 57 then some (c.toNat - 48)
  else if 65 ≤ c.toNat && c.toNat ≤ 70 then some (c.toNat - 55)
  else if 97 ≤ c.toNat && c.toNat ≤ 102 then some (c.toNat - 87)
  else none

/-- Model of urllib.parse.unquote on the character list: each "%XX"
with two hexadecimal digits becomes the character with that code, any
other "%" is kept literally.  Exact for percent-escapes of ASCII
bytes, which are the only escapes the program's suffix test can be
affected by. -/
def unquoteChars : List Char → List Char
  | [] => []
  | '%' :: a :: b :: rest =>
    match hexDigitVal a, hexDigitVal b with
    | some ha, some hb => Char.ofNat (16 * ha + hb) :: unquoteChars rest
    | _, _ => '%' :: unquoteChars (a :: b :: rest)
  | c :: rest => c :: unquoteChars rest

/-- Model of urllib.parse.unquote. -/
def unquote (s : String) : String :=
  ⟨unquoteChars s.data⟩

/-- Model of parse_html (src/main.py lines 33-45): over the anchors the
collaborator reports, keep only those with an href attribute, and keep
the original href exactly when its percent-decoded form lower-cases to
a ".pdf" suffix. -/
def parse_html (anchors : List Anchor) : List String :=
  (anchors.filterMap (fun a => a.href)).filter
    (fun href => strEndsWith (pyLower (unquote href)) ".pdf")

/- ### src/main.py: wait_for_pdf_download (lines 129-148) -/

/-- The filter the wait loop applies to a directory entry: not present
in the pre-download snapshot and, lower-cased, ending in ".pdf". -/
def isNewPdf (filesBefore : List String) (f : String) : Bool :=
  !(filesBefore.contains f) && strEndsWith (pyLower f) ".pdf"

/-- Engine of wait_for_pdf_download: the poll sequence holds one
directory listing per iteration of the while loop that runs before the
deadline.  Returns the listing in which a fresh PDF first appeared
together with that filename, so the caller can model the directory
state after the move; raises TimeoutError when the polls are
exhausted. -/
def waitPolls (filesBefore : List String) :
    List (List String) → Except String (List String × String)
  | [] => .error "PDF download timed out."
  | current :: rest =>
    match current.filter (fun f => isNewPdf filesBefore f) with
    | [] => waitPolls filesBefore rest
    | newPdf :: _ => .ok (current, newPdf)

/-- Model of wait_for_pdf_download (src/main.py lines 129-148): the
joined path of the first newly-appeared PDF, or the TimeoutError. -/
def wait_for_pdf_download (downloadFolder : String) (filesBefore : List String)
    (polls : List (List String)) : Except String String :=
  match waitPolls filesBefore polls with
  | .error e => .error e
  | .ok found => .ok (pathJoin downloadFolder found.2)

/- ### src/main.py: download_single_pdf (lines 196-222) -/

/-- The filesystem and driver state the download phase touches: the
output directory (none while it does not exist, otherwise its
filenames) and the log of URLs passed to driver.get. -/
structure DLState where
  outputDir : Option (List String)
  navigations : List String
deriving DecidableEq

/-- Per-link outcome of download_single_pdf. -/
inductive Outcome where
  | skipped
  | completed (path : String)
  | failed (message : String)
deriving DecidableEq

/-- Model of download_single_pdf (src/main.py lines 196-222).
os.makedirs(exist_ok=True) materialises the directory; an existing
target file short-circuits to a skip; otherwise the directory is
snapshotted, driver.get is issued (navRaises true models it raising,
which the bare except catches), the wait monitor runs over the polls,
and on success shutil.move renames the found file to the target. -/
def download_single_pdf (url filename outputFolder : String) (st : DLState)
    (navRaises : Bool) (polls : List (List String)) : Outcome × DLState :=
  let contents := st.outputDir.getD []
  let st1 : DLState := { st with outputDir := some contents }
  let targetFilePath := pathJoin outputFolder filename
  if contents.contains filename then
    (.skipped, st1)
  else
    let filesBefore := contents
    let st2 : DLState := { st1 with navigations := st1.navigations ++ [url] }
    if navRaises then
      (.failed "driver error", st2)
    else
      match waitPolls filesBefore polls with
      | .error e => (.failed e, st2)
      | .ok found =>
        let movedContents :=
          ((found.1.erase found.2).filter (fun f => f ≠ filename)) ++ [filename]
        (.completed targetFilePath, { st2 with outputDir := some movedContents })

/- ### src/main.py: validate_url (lines 226-227) and the per-link loop -/

/-- The site origin main prepends to hrefs that fail validation
(src/main.py line 264). -/
def siteOrigin : String := "https://www.biokleen.com"

/-- Model of the URL repair in main's loop (src/main.py lines 263-264):
the validators.url collaborator is the predicate V; an href failing it
gets the origin prepended verbatim, and the result is never
re-validated. -/
def resolve_pdf_link (V : String → Bool) (href : String) : String :=
  if V href then href else siteOrigin ++ href

/-- Model of os.path.abspath("PDFs"), the download directory
(src/main.py line 256); absolutisation itself is environmental and not
modelled. -/
def pdfOutputDir : String := "PDFs"

/-- Model of main's per-link loop (src/main.py lines 262-275): repair
the URL, derive the filename (outside any exception handler, so a
ValueError from urlparse propagates as .error and aborts the loop),
then run download_single_pdf, whose own try/except confines download
failures to that link's outcome. -/
def processLinks (V : String → Bool) (polls : String → List (List String))
    (navRaises : String → Bool) (links : List String) (st : DLState) :
    Except String (DLState × List Outcome) :=
  match links with
  | [] => .ok (st, [])
  | link :: rest =>
    let resolved := resolve_pdf_link V link
    match url_to_filename resolved with
    | .error e => .error e
    | .ok filename =>
      let step :=
        download_single_pdf resolved filename pdfOutputDir st
          (navRaises resolved) (polls resolved)
      match processLinks V polls navRaises rest step.2 with
      | .error e => .error e
      | .ok done => .ok (done.1, step.1 :: done.2)

/- ### src/main.py: validation sweep (lines 157-192 and 279-297) -/

/-- Model of the walk input: os.walk's enumeration as (root, files)
pairs. -/
def walk_directory_and_extract_given_file_extension
    (tree : List (String × List String)) (extension : String) : List String :=
  tree.flatMap (fun rd =>
    (rd.2.filter (fun file => strEndsWith file extension)).map
      (fun file => pathJoin rd.1 file))

/-- Outcome of the fitz.open collaborator on one file: a structural
RuntimeError, or a successful open reporting a page count. -/
inductive OpenResult where
  | failure
  | pages (n : Nat)
deriving DecidableEq

/-- Model of validate_pdf_file (src/main.py lines 172-181): False when
opening raises or the page count is zero, True otherwise. -/
def validate_pdf_file (r : OpenResult) : Bool :=
  match r with
  | .failure => false
  | .pages n => if n = 0 then false else true

/-- Model of os.path.basename, as used by get_filename_and_extension
(src/main.py lines 185-186). -/
def get_filename_and_extension (path : String) : String :=
  ⟨(splitOnChar '/' path.data).getLastD []⟩

/-- Model of check_upper_case_letter (src/main.py lines 190-192),
with Python's char.isupper() restricted to ASCII. -/
def check_upper_case_letter (content : String) : Bool :=
  content.data.any (fun c => 65 ≤ c.toNat && c.toNat ≤ 90)

/-- Result of main's validation loop: which files it removed and which
paths it printed for an uppercase letter in the filename. -/
structure SweepResult where
  deleted : List String
  reported : List String
deriving DecidableEq

/-- Model of main's validation loop (src/main.py lines 285-297): for
each file, delete it when validate_pdf_file returns False, and —
independently, not in an else branch — print it when its basename has
an uppercase letter.  openOracle is the fitz collaborator. -/
def validationSweep (openOracle : String → OpenResult) :
    List String → SweepResult
  | [] => { deleted := [], reported := [] }
  | pdfFile :: rest =>
    let tail := validationSweep openOracle rest
    let deletedHere :=
      if validate_pdf_file (openOracle pdfFile) = false then [pdfFile] else []
    let reportedHere :=
      if check_upper_case_letter (get_filename_and_extension pdfFile) then
        [pdfFile]
      else []
    { deleted := deletedHere ++ tail.deleted,
      reported := reportedHere ++ tail.reported }

/- ### src/main.py: fetch phase of main (lines 230-251) -/

/-- Observable outcome of main's fetch phase. -/
structure FetchOutcome where
  driverLaunched : Bool
  snapshotRemovedFirst : Bool
  parsedContent : Option String
deriving DecidableEq

/-- Model of main's fetch phase (src/main.py lines 230-251): if the
snapshot file exists it is removed; then, since the file no longer
exists, the HTML driver is created and save_html_with_selenium appends
the fetched page HTML to the file (writing nothing on a page-load
timeout, modelled by fetched = none); finally the file, when it
exists, is read and its content parsed. -/
def fetchPhase (initialSnapshot : Option String) (fetched : Option String) :
    FetchOutcome :=
  let snap1 : Option String :=
    if initialSnapshot.isSome then none else initialSnapshot
  if snap1.isSome then
    { driverLaunched := false,
      snapshotRemovedFirst := initialSnapshot.isSome,
      parsedContent := snap1 }
  else
    let snap2 : Option String :=
      match fetched with
      | some html => some ((snap1.getD "") ++ html)
      | none => snap1
    { driverLaunched := true,
      snapshotRemovedFirst := initialSnapshot.isSome,
      parsedContent := snap2 }

/- ### Named concrete oracles used by counterexamples and witnesses -/

/-- A validators.url collaborator that rejects every string. -/
def neverValid : String → Bool := fun _ => false

/-- A validators.url collaborator that accepts every string. -/
def alwaysValid : String → Bool := fun _ => true

/-- A poll oracle under which no file ever appears before the deadline. -/
def noPolls : String → List (List String) := fun _ => []

/-- A driver.get oracle that never raises. -/
def navNeverRaises : String → Bool := fun _ => false

/-- A driver.get oracle that always raises. -/
def navAlwaysRaises : String → Bool := fun _ => true

/-- A fitz collaborator for which every open raises a structural error. -/
def alwaysFailOpen : String → OpenResult := fun _ => .failure

/- ### Helper lemmas -/

/-- Characters of the class [a-z0-9._-] are fixed points of ASCII
lower-casing. -/
lemma pyLowerChar_of_allowed (c : Char) (h : allowedFilenameChar c = true) :
    pyLowerChar c = c := by
  unfold allowedFilenameChar at h
  unfold pyLowerChar
  simp only [Bool.or_eq_true, Bool.and_eq_true, decide_eq_true_eq] at h
  have hn : ¬(65 ≤ c.toNat ∧ c.toNat ≤ 90) := by omega
  have hb : ¬((65 ≤ c.toNat && c.toNat ≤ 90) = true) := by
    simp only [Bool.and_eq_true, decide_eq_true_eq]
    exact hn
  rw [if_neg hb]

/-- No character of the class [a-z0-9._-] is the path separator. -/
lemma allowed_ne_slash (c : Char) (h : allowedFilenameChar c = true) :
    c ≠ '/' := by
  intro he
  subst he
  exact absurd h (by decide)

/-- Every character cleanFilename produces is in [a-z0-9._-]. -/
lemma cleanFilename_chars (path : String) (c : Char)
    (hc : c ∈ (cleanFilename path).data) : allowedFilenameChar c = true := by
  have hc' : c ∈
      ((pyLower ⟨(splitOnChar '/' path.data).getLastD []⟩).data.filter
        allowedFilenameChar).map pyLowerChar := hc
  obtain ⟨c', hcf, hce⟩ := List.mem_map.mp hc'
  have hall := (List.mem_filter.mp hcf).2
  rw [← hce, pyLowerChar_of_allowed c' hall]
  exact hall

/- ### Claim theorems -/

/-- C2 (amended): url_to_filename is a pure function of its argument
(definitional in the embedding), and every filename it returns
consists only of characters in [a-z0-9._-]; in particular it never
contains the path separator.  The original claim's non-emptiness part
fails — see the counterexample. -/
theorem c2_filename_charset (url s : String)
    (h : url_to_filename url = .ok s) (c : Char) (hc : c ∈ s.data) :
    allowedFilenameChar c = true ∧ c ≠ '/' := by
  have hs : ∃ path, urlparsePath url = .ok path ∧ s = cleanFilename path := by
    unfold url_to_filename at h
    cases e : urlparsePath url with
    | error msg => rw [e] at h; cases h
    | ok p => rw [e] at h; cases h; exact ⟨p, rfl, rfl⟩
  obtain ⟨p, -, rfl⟩ := hs
  have ha := cleanFilename_chars p c hc
  exact ⟨ha, allowed_ne_slash c ha⟩

/-- C2 witness: on the site's own link shape the theorem applies at a
concrete character of the derived filename. -/
theorem c2_filename_charset_witness :
    allowedFilenameChar 's' = true ∧ 's' ≠ '/' :=
  c2_filename_charset "https://www.biokleen.com/sds/sheet1.PDF" "sheet1.pdf"
    rfl 's' (by decide)

/-- C2 counterexample: a URL whose path ends in "/" yields the empty
filename, refuting "never empty" (the regular expression
^[a-z0-9._-]+$ requires at least one character). -/
theorem c2_cex_empty_filename :
    url_to_filename "https://example.com/" = .ok "" ∧ ("" : String).data = [] :=
  ⟨rfl, rfl⟩

/-- C1 (amended): the fetch phase always runs — the fetch driver is
launched on every run, a pre-existing snapshot is removed first, and
what gets parsed is the freshly fetched HTML (nothing on a fetch
timeout), never the pre-existing snapshot's content. -/
theorem c1_fetch_always_runs (initialSnapshot fetched : Option String) :
    (fetchPhase initialSnapshot fetched).driverLaunched = true
    ∧ (fetchPhase initialSnapshot fetched).parsedContent = fetched
    ∧ (fetchPhase initialSnapshot fetched).snapshotRemovedFirst
        = initialSnapshot.isSome := by
  cases initialSnapshot <;> cases fetched <;> exact ⟨rfl, rfl, rfl⟩

/-- C1 counterexample: with the snapshot file present at the start of
the run, the fetch driver is still launched, the snapshot is removed,
and the freshly fetched HTML — not the existing snapshot content — is
what gets parsed. -/
theorem c1_cex_snapshot_not_cached :
    (fetchPhase (some "cached") (some "fresh")).driverLaunched = true
    ∧ (fetchPhase (some "cached") (some "fresh")).snapshotRemovedFirst = true
    ∧ (fetchPhase (some "cached") (some "fresh")).parsedContent = some "fresh"
    ∧ (fetchPhase (some "cached") (some "fresh")).parsedContent
        ≠ some "cached" := by
  refine ⟨rfl, rfl, rfl, by decide⟩

/-- C9: the URL used for the download is the href itself when the
validator accepts it, and otherwise the site origin prepended verbatim
to the href; the validator is consulted only on the original href —
the repaired URL is used without re-validation (the result depends
only on the validator's verdict at the original value). -/
theorem c9_two_phase_url_repair (V W : String → Bool) (href : String) :
    (V href = true → resolve_pdf_link V href = href)
    ∧ (V href = false → resolve_pdf_link V href = siteOrigin ++ href)
    ∧ (V href = W href → resolve_pdf_link V href = resolve_pdf_link W href) := by
  refine ⟨fun h => ?_, fun h => ?_, fun h => ?_⟩ <;>
    simp [resolve_pdf_link, h]

/-- C9 witness: a rejected relative href gets the origin prepended
verbatim; an accepted href is used unchanged. -/
theorem c9_two_phase_url_repair_witness :
    resolve_pdf_link neverValid "/a.pdf" = siteOrigin ++ "/a.pdf"
    ∧ resolve_pdf_link alwaysValid "/a.pdf" = "/a.pdf" :=
  ⟨(c9_two_phase_url_repair neverValid alwaysValid "/a.pdf").2.1 rfl,
   (c9_two_phase_url_repair alwaysValid neverValid "/a.pdf").1 rfl⟩

/-- C10: the validation sweep's walk matches the ".pdf" extension
case-sensitively — it collects exactly the files whose names end in
the literal ".pdf" — so a file named with an uppercase variant such as
"report.PDF" is never found by the sweep, while the Download-Wait
Monitor's filter accepts that same name case-insensitively. -/
theorem c10_walk_case_sensitive (tree : List (String × List String))
    (p : String) :
    (p ∈ walk_directory_and_extract_given_file_extension tree ".pdf" ↔
      ∃ rd ∈ tree, ∃ file ∈ rd.2, strEndsWith file ".pdf" = true ∧
        p = pathJoin rd.1 file)
    ∧ strEndsWith "report.PDF" ".pdf" = false
    ∧ isNewPdf [] "report.PDF" = true
    ∧ walk_directory_and_extract_given_file_extension
        [("PDFs", ["report.PDF"])] ".pdf" = [] := by
  refine ⟨?_, rfl, rfl, rfl⟩
  unfold walk_directory_and_extract_given_file_extension
  simp only [List.mem_flatMap, List.mem_map, List.mem_filter]
  constructor
  · rintro ⟨rd, hrd, file, ⟨hfile, hsuf⟩, rfl⟩
    exact ⟨rd, hrd, file, hfile, hsuf, rfl⟩
  · rintro ⟨rd, hrd, file, hfile, hsuf, rfl⟩
    exact ⟨rd, hrd, file, ⟨hfile, hsuf⟩, rfl⟩

/-- The wait engine times out exactly when no poll contains a fresh
PDF. -/
lemma waitPolls_error_iff (before : List String) (polls : List (List String)) :
    waitPolls before polls = .error "PDF download timed out." ↔
      ∀ l ∈ polls, ∀ f ∈ l, isNewPdf before f = false := by
  induction polls with
  | nil => simp [waitPolls]
  | cons current rest ih =>
    cases e : current.filter (fun f => isNewPdf before f) with
    | nil =>
      have hcur : ∀ f ∈ current, isNewPdf before f = false := by
        intro f hf
        have := List.filter_eq_nil_iff.mp e f hf
        simpa using this
      simp only [waitPolls, e]
      constructor
      · intro h l hl
        rcases List.mem_cons.mp hl with rfl | hl'
        · exact hcur
        · exact (ih.mp h) l hl'
      · intro h
        exact ih.mpr (fun l hl => h l (List.mem_cons_of_mem _ hl))
    | cons p ps =>
      simp only [waitPolls, e]
      constructor
      · intro h; cases h
      · intro h
        have hp : p ∈ current.filter (fun f => isNewPdf before f) := by
          rw [e]; exact List.mem_cons_self _ _
        have hmf := List.mem_filter.mp hp
        have htrue : isNewPdf before p = true := by simpa using hmf.2
        have hfalse := h current (List.mem_cons_self _ _) p hmf.1
        rw [htrue] at hfalse
        cases hfalse

/-- The wait engine succeeds on the first poll holding a fresh PDF,
returning that poll and a fresh PDF from it. -/
lemma waitPolls_found (before : List String) (pre post : List (List String))
    (l : List String)
    (hpre : ∀ l' ∈ pre, ∀ f ∈ l', isNewPdf before f = false)
    (hl : ∃ f ∈ l, isNewPdf before f = true) :
    ∃ f, f ∈ l ∧ isNewPdf before f = true ∧
      waitPolls before (pre ++ l :: post) = .ok (l, f) := by
  induction pre with
  | nil =>
    obtain ⟨f0, hf0, hnew⟩ := hl
    cases e : l.filter (fun f => isNewPdf before f) with
    | nil =>
      have := List.filter_eq_nil_iff.mp e f0 hf0
      simp [hnew] at this
    | cons p ps =>
      have hp : p ∈ l.filter (fun f => isNewPdf before f) := by
        rw [e]; exact List.mem_cons_self _ _
      have hmf := List.mem_filter.mp hp
      refine ⟨p, hmf.1, by simpa using hmf.2, ?_⟩
      simp [waitPolls, e]
  | cons x pre' ih =>
    have hx : x.filter (fun f => isNewPdf before f) = [] := by
      apply List.filter_eq_nil_iff.mpr
      intro f hf
      simp [hpre x (List.mem_cons_self _ _) f hf]
    obtain ⟨f, h1, h2, h3⟩ :=
      ih (fun l' hl' => hpre l' (List.mem_cons_of_mem _ hl'))
    exact ⟨f, h1, h2, by simp [waitPolls, hx, h3]⟩

/-- C3: the Download-Wait Monitor raises its TimeoutError exactly when
no listing taken before the deadline holds a filename that is absent
from the snapshot and ends in ".pdf" case-insensitively; and as soon
as some listing holds such a filename — all earlier listings holding
none — it returns the joined path of such a file from that very
listing. -/
theorem c3_wait_monitor (downloadFolder : String) (before : List String)
    (polls : List (List String)) :
    (wait_for_pdf_download downloadFolder before polls =
        .error "PDF download timed out." ↔
      ∀ l ∈ polls, ∀ f ∈ l, isNewPdf before f = false)
    ∧ (∀ pre l post, polls = pre ++ l :: post →
        (∀ l' ∈ pre, ∀ f ∈ l', isNewPdf before f = false) →
        (∃ f ∈ l, isNewPdf before f = true) →
        ∃ f, f ∈ l ∧ isNewPdf before f = true ∧
          wait_for_pdf_download downloadFolder before polls =
            .ok (pathJoin downloadFolder f)) := by
  constructor
  · rw [← waitPolls_error_iff]
    unfold wait_for_pdf_download
    cases waitPolls before polls with
    | error e => simp
    | ok found => simp
  · intro pre l post hsplit hpre hl
    obtain ⟨f, h1, h2, h3⟩ := waitPolls_found before pre post l hpre hl
    refine ⟨f, h1, h2, ?_⟩
    rw [hsplit]
    unfold wait_for_pdf_download
    rw [h3]

/-- C3 witness: a directory that gains "doc.pdf" in its first poll
yields Found("PDFs/doc.pdf"); no poll at all yields the timeout. -/
theorem c3_wait_monitor_witness :
    (∃ f, f ∈ ["doc.pdf"] ∧ isNewPdf [] f = true ∧
      wait_for_pdf_download "PDFs" [] [["doc.pdf"]] =
        .ok (pathJoin "PDFs" f))
    ∧ wait_for_pdf_download "PDFs" [] [] =
        .error "PDF download timed out." :=
  ⟨(c3_wait_monitor "PDFs" [] [["doc.pdf"]]).2 [] ["doc.pdf"] [] rfl
      (by intro l' hl'; cases hl') ⟨"doc.pdf", by decide, by decide⟩,
   (c3_wait_monitor "PDFs" [] []).1.mpr (by intro l hl; cases hl)⟩

/-- Files removed by the sweep are exactly the visited files that
validate_pdf_file rejects. -/
lemma mem_sweep_deleted (oracle : String → OpenResult) (files : List String)
    (f : String) :
    f ∈ (validationSweep oracle files).deleted ↔
      f ∈ files ∧ validate_pdf_file (oracle f) = false := by
  induction files with
  | nil => simp [validationSweep]
  | cons g rest ih =>
    by_cases hv : validate_pdf_file (oracle g) = false
    · by_cases hf : f = g
      · subst hf
        simp [validationSweep, hv, ih]
      · simp [validationSweep, hv, hf, ih]
    · by_cases hf : f = g
      · subst hf
        simp [validationSweep, hv, ih]
      · simp [validationSweep, hv, hf, ih]

/-- Files printed by the sweep are exactly the visited files whose
basename has an uppercase letter, whatever the open oracle says. -/
lemma mem_sweep_reported (oracle : String → OpenResult) (files : List String)
    (f : String) :
    f ∈ (validationSweep oracle files).reported ↔
      f ∈ files ∧
        check_upper_case_letter (get_filename_and_extension f) = true := by
  induction files with
  | nil => simp [validationSweep]
  | cons g rest ih =>
    by_cases hu : check_upper_case_letter (get_filename_and_extension g) = true
    · by_cases hf : f = g
      · subst hf
        simp [validationSweep, hu, ih]
      · simp [validationSweep, hu, hf, ih]
    · by_cases hf : f = g
      · subst hf
        simp [validationSweep, hu, ih]
      · simp [validationSweep, hu, hf, ih]

/-- C5: a visited file is deleted by the sweep exactly when opening it
raises a structural error or the reported page count is zero; a
zero-page file is classified identically to one that fails to open. -/
theorem c5_corrupt_deleted_iff (oracle : String → OpenResult)
    (files : List String) (f : String) (hf : f ∈ files) :
    (f ∈ (validationSweep oracle files).deleted ↔
      (oracle f = .failure ∨ oracle f = .pages 0))
    ∧ validate_pdf_file (.pages 0) = validate_pdf_file .failure := by
  refine ⟨?_, rfl⟩
  rw [mem_sweep_deleted]
  constructor
  · rintro ⟨-, hv⟩
    cases ho : oracle f with
    | failure => exact Or.inl rfl
    | pages n =>
      rw [ho] at hv
      by_cases hn : n = 0
      · subst hn
        exact Or.inr rfl
      · simp [validate_pdf_file, hn] at hv
  · intro h
    refine ⟨hf, ?_⟩
    rcases h with h | h <;> rw [h] <;> rfl

/-- C5 witness: a file whose open always raises is deleted by the
sweep. -/
theorem c5_corrupt_deleted_iff_witness :
    ("PDFs/bad.pdf" ∈
        (validationSweep alwaysFailOpen ["PDFs/bad.pdf"]).deleted ↔
      (alwaysFailOpen "PDFs/bad.pdf" = .failure ∨
        alwaysFailOpen "PDFs/bad.pdf" = .pages 0))
    ∧ validate_pdf_file (.pages 0) = validate_pdf_file .failure :=
  c5_corrupt_deleted_iff alwaysFailOpen ["PDFs/bad.pdf"] "PDFs/bad.pdf"
    (by decide)

/-- C4 (amended): the uppercase-filename report is independent of the
Valid/Corrupt classification — the sweep reports exactly the visited
files whose basename has an uppercase letter, for every open oracle,
so even a file classified Corrupt (and deleted) is reported. -/
theorem c4_reported_iff_uppercase (oracle : String → OpenResult)
    (files : List String) (f : String) :
    f ∈ (validationSweep oracle files).reported ↔
      f ∈ files ∧
        check_upper_case_letter (get_filename_and_extension f) = true :=
  mem_sweep_reported oracle files f

/-- C4 counterexample: a corrupt file (its open raises) whose filename
has an uppercase letter is deleted and nevertheless reported — the
uppercase check is not guarded by the Valid classification. -/
theorem c4_cex_corrupt_still_reported :
    validate_pdf_file (alwaysFailOpen "PDFs/Bad.pdf") = false
    ∧ "PDFs/Bad.pdf" ∈
        (validationSweep alwaysFailOpen ["PDFs/Bad.pdf"]).deleted
    ∧ "PDFs/Bad.pdf" ∈
        (validationSweep alwaysFailOpen ["PDFs/Bad.pdf"]).reported := by
  exact ⟨rfl, by decide, by decide⟩

/-- C8: the Link Extractor returns exactly the href strings of anchors
that have an href attribute and whose percent-decoded form,
lower-cased, ends in ".pdf"; the returned strings are the original,
non-decoded hrefs (a percent-escaped href is returned verbatim), and
anchors without an href attribute contribute nothing. -/
theorem c8_link_extractor (anchors : List Anchor) (h : String) :
    (h ∈ parse_html anchors ↔
      (∃ a ∈ anchors, a.href = some h) ∧
        strEndsWith (pyLower (unquote h)) ".pdf" = true)
    ∧ "a%2Epdf" ∈ parse_html [⟨some "a%2Epdf"⟩]
    ∧ "a.pdf" ∉ parse_html [⟨some "a%2Epdf"⟩]
    ∧ parse_html [⟨none⟩] = [] := by
  refine ⟨?_, by decide, by decide, rfl⟩
  unfold parse_html
  rw [List.mem_filter, List.mem_filterMap]

/-- The per-link step taken for one link by main's loop: repaired URL,
derived filename, and the download call on them. -/
lemma processLinks_cons (V : String → Bool)
    (polls : String → List (List String)) (navRaises : String → Bool)
    (link : String) (rest : List String) (st : DLState) (filename : String)
    (hf : url_to_filename (resolve_pdf_link V link) = .ok filename) :
    processLinks V polls navRaises (link :: rest) st =
      (match processLinks V polls navRaises rest
          (download_single_pdf (resolve_pdf_link V link) filename pdfOutputDir
            st (navRaises (resolve_pdf_link V link))
            (polls (resolve_pdf_link V link))).2 with
        | .error e => .error e
        | .ok done =>
          .ok (done.1,
            (download_single_pdf (resolve_pdf_link V link) filename pdfOutputDir
              st (navRaises (resolve_pdf_link V link))
              (polls (resolve_pdf_link V link))).1 :: done.2)) := by
  simp only [processLinks, hf]

/-- C7: a download whose target file already exists is a pure skip —
outcome Skipped, no navigation issued, the directory untouched, the
state returned exactly as received; consequently a run of the whole
per-link loop over links whose derived targets all exist leaves the
state unchanged and navigates nowhere (zero redundant downloads). -/
theorem c7_skip_and_idempotence :
    (∀ url filename outputFolder (st : DLState) c navRaises polls,
      st.outputDir = some c → c.contains filename = true →
      download_single_pdf url filename outputFolder st navRaises polls =
        (Outcome.skipped, st))
    ∧ (∀ (V : String → Bool) polls navRaises (links : List String)
        (st : DLState) c,
      st.outputDir = some c →
      (∀ link ∈ links, ∃ f,
        url_to_filename (resolve_pdf_link V link) = .ok f ∧
          c.contains f = true) →
      processLinks V polls navRaises links st =
        .ok (st, links.map (fun _ => Outcome.skipped))) := by
  have part1 : ∀ url filename outputFolder (st : DLState) c navRaises polls,
      st.outputDir = some c → c.contains filename = true →
      download_single_pdf url filename outputFolder st navRaises polls =
        (Outcome.skipped, st) := by
    intro url filename outputFolder st c navRaises polls hdir hmem
    obtain ⟨od, nav⟩ := st
    simp only at hdir
    subst hdir
    simp [download_single_pdf, hmem]
    intro hnot
    exact absurd (by simpa using hmem) hnot
  refine ⟨part1, ?_⟩
  intro V polls navRaises links
  induction links with
  | nil =>
    intro st c hdir hlinks
    simp [processLinks]
  | cons link rest ih =>
    intro st c hdir hlinks
    obtain ⟨f, hf, hfc⟩ := hlinks link (List.mem_cons_self _ _)
    have hstep := part1 (resolve_pdf_link V link) f pdfOutputDir st c
      (navRaises (resolve_pdf_link V link)) (polls (resolve_pdf_link V link))
      hdir hfc
    rw [processLinks_cons V polls navRaises link rest st f hf, hstep]
    rw [ih st c hdir (fun l hl => hlinks l (List.mem_cons_of_mem _ hl))]
    simp

/-- C7 witness: with "a.pdf" already present, the download is a pure
skip and a one-link run over it changes nothing. -/
theorem c7_skip_and_idempotence_witness :
    download_single_pdf "https://www.biokleen.com/a.pdf" "a.pdf" "PDFs"
        { outputDir := some ["a.pdf"], navigations := [] } false []
      = (Outcome.skipped, { outputDir := some ["a.pdf"], navigations := [] })
    ∧ processLinks neverValid noPolls navNeverRaises ["/a.pdf"]
        { outputDir := some ["a.pdf"], navigations := [] }
      = .ok ({ outputDir := some ["a.pdf"], navigations := [] },
          [Outcome.skipped]) :=
  ⟨c7_skip_and_idempotence.1 "https://www.biokleen.com/a.pdf" "a.pdf" "PDFs"
      { outputDir := some ["a.pdf"], navigations := [] } ["a.pdf"] false []
      rfl rfl,
   c7_skip_and_idempotence.2 neverValid noPolls navNeverRaises ["/a.pdf"]
      { outputDir := some ["a.pdf"], navigations := [] } ["a.pdf"] rfl
      (by
        intro link hl
        have hlink : link = "/a.pdf" := by simpa using hl
        subst hlink
        exact ⟨"a.pdf", rfl, rfl⟩)⟩

/-- C6 (amended): failures inside download_single_pdf — the driver
raising on navigation, the wait timing out — are caught per link and
the loop always finishes with one outcome per link; but filename
derivation is not so protected (see the counterexample). -/
theorem c6_download_errors_isolated (V : String → Bool)
    (polls : String → List (List String)) (navRaises : String → Bool) :
    ∀ (links : List String) (st : DLState),
      (∀ link ∈ links, ∃ f,
        url_to_filename (resolve_pdf_link V link) = .ok f) →
      ∃ st2 outs, processLinks V polls navRaises links st = .ok (st2, outs) ∧
        outs.length = links.length := by
  intro links
  induction links with
  | nil =>
    intro st h
    exact ⟨st, [], rfl, rfl⟩
  | cons link rest ih =>
    intro st h
    obtain ⟨f, hf⟩ := h link (List.mem_cons_self _ _)
    obtain ⟨st2, outs, hrec, hlen⟩ :=
      ih (download_single_pdf (resolve_pdf_link V link) f pdfOutputDir st
            (navRaises (resolve_pdf_link V link))
            (polls (resolve_pdf_link V link))).2
        (fun l hl => h l (List.mem_cons_of_mem _ hl))
    refine ⟨st2,
      (download_single_pdf (resolve_pdf_link V link) f pdfOutputDir st
        (navRaises (resolve_pdf_link V link))
        (polls (resolve_pdf_link V link))).1 :: outs, ?_, by simp [hlen]⟩
    rw [processLinks_cons V polls navRaises link rest st f hf, hrec]

/-- C6 witness: a link whose navigation raises still yields a
completed run with one (failed) outcome for it. -/
theorem c6_download_errors_isolated_witness :
    ∃ st2 outs,
      processLinks neverValid noPolls navAlwaysRaises ["/ok.pdf"]
          { outputDir := some [], navigations := [] } = .ok (st2, outs)
      ∧ outs.length = ["/ok.pdf"].length :=
  c6_download_errors_isolated neverValid noPolls navAlwaysRaises ["/ok.pdf"]
    { outputDir := some [], navigations := [] }
    (by
      intro link hl
      have hlink : link = "/ok.pdf" := by simpa using hl
      subst hlink
      exact ⟨"ok.pdf", rfl⟩)

/-- C6 counterexample: filename derivation happens in main outside any
exception handler; the href "[a.pdf" (a PDF link by the extractor's
suffix test) fails URL validation, gets the origin prepended, and the
resulting "https://www.biokleen.com[a.pdf" makes urlparse raise
ValueError("Invalid IPv6 URL") — the whole run aborts and the second
link is never processed, refuting "caught and recorded as a failure
for that link only". -/
theorem c6_cex_derivation_aborts_run :
    processLinks neverValid noPolls navNeverRaises ["[a.pdf", "/ok.pdf"]
        { outputDir := some [], navigations := [] }
      = .error "Invalid IPv6 URL" := rfl

end BiokleenPdf
